import Mathlib

/-!
Verification of the keploy record-and-replay core against its specification.

The Go source is shallowly embedded: each Go function relevant to a claim is
translated into an executable Lean definition over explicit state.  Timestamps
(`time.Time`) are modelled as `Nat`, with `0` standing for the zero value
`time.Time\x7b\x7d`; `t1.After t2` is `t1 > t2` and `t1.Before t2` is `t1 < t2`.
Byte buffers are `List Nat` with bytes reduced modulo 256 where machine
semantics matter.  External collaborators (HTTP parsers, the instrumentation
layer, channels) are modelled by explicit outcome parameters, so a registry
sweep or a test loop becomes a pure function of the outcomes its collaborators
would produce.
-/

namespace Keploy

/-! ## MockStore filtering (`FilterTcsMocks`, part_000 lines 346-384)

`models.Mock` carries `Spec.ReqTimestampMock` and `Spec.ResTimestampMock`;
`models.TestCase` carries `HttpReq.Timestamp` and `HttpResp.Timestamp`.
Only the fields read by `FilterTcsMocks` are modelled; `Version` and `Name`
are kept because the function reads them (for warnings only). -/

structure MockM where
  name : String
  version : String
  reqTsMock : Nat
  resTsMock : Nat
deriving DecidableEq, Repr

structure TcM where
  name : String
  httpReqTs : Nat
  httpRespTs : Nat
deriving DecidableEq, Repr

/-- Body of the `for _, mock := range m` loop of `FilterTcsMocks`: a mock with
a missing (zero) request or response timestamp is appended unconditionally;
otherwise it is appended exactly when `mock.Spec.ReqTimestampMock.After
(tc.HttpReq.Timestamp)` and `mock.Spec.ResTimestampMock.Before
(tc.HttpResp.Timestamp)`.  The `entMocks` / `nonKeployMocks` bookkeeping of the
source only feeds log warnings and does not affect the returned list. -/
def filterLoop (tc : TcM) : List MockM → List MockM
  | [] => []
  | mock :: rest =>
    if mock.reqTsMock == 0 || mock.resTsMock == 0 then
      mock :: filterLoop tc rest
    else if decide (tc.httpReqTs < mock.reqTsMock) && decide (mock.resTsMock < tc.httpRespTs) then
      mock :: filterLoop tc rest
    else
      filterLoop tc rest

/-- `FilterTcsMocks` (part_000 lines 346-384): returns `m` unchanged when the
test case lacks either timestamp, else runs the filtering loop. -/
def FilterTcsMocks (tc : TcM) (m : List MockM) : List MockM :=
  if tc.httpReqTs == 0 then m
  else if tc.httpRespTs == 0 then m
  else filterLoop tc m

/-- The inclusion predicate stated by the claim: the mock lacks a timestamp,
or its timestamps lie strictly inside the test case's window. -/
def mockIncluded (tc : TcM) (mock : MockM) : Bool :=
  mock.reqTsMock == 0 || mock.resTsMock == 0 ||
    (decide (tc.httpReqTs < mock.reqTsMock) && decide (mock.resTsMock < tc.httpRespTs))

theorem filterLoop_eq_filter (tc : TcM) (m : List MockM) :
    filterLoop tc m = m.filter (mockIncluded tc) := by
  induction m with
  | nil => rfl
  | cons mock rest ih =>
    by_cases h1 : (mock.reqTsMock == 0 || mock.resTsMock == 0) = true
    · simp [filterLoop, mockIncluded, h1, ih, List.filter]
    · by_cases h2 : (decide (tc.httpReqTs < mock.reqTsMock) &&
          decide (mock.resTsMock < tc.httpRespTs)) = true
      · simp [filterLoop, mockIncluded, h1, h2, ih, List.filter]
      · simp [filterLoop, mockIncluded, h1, h2, ih, List.filter]

/-- Claim C1: when the test case has both timestamps, `FilterTcsMocks` returns
exactly the mocks that lack a request or a response timestamp or whose request
timestamp is strictly after the test's request timestamp and whose response
timestamp is strictly before the test's response timestamp (in recording
order); when either test timestamp is missing, the whole list is returned
unchanged. -/
theorem FilterTcsMocks_window (tc : TcM) (m : List MockM) :
    (tc.httpReqTs ≠ 0 → tc.httpRespTs ≠ 0 →
      FilterTcsMocks tc m = m.filter (mockIncluded tc)) ∧
    (tc.httpReqTs = 0 ∨ tc.httpRespTs = 0 → FilterTcsMocks tc m = m) := by
  constructor
  · intro h1 h2
    simp [FilterTcsMocks, h1, h2, filterLoop_eq_filter]
  · intro h
    rcases h with h | h <;> simp [FilterTcsMocks, h]

/-- Witness for C1, using the spec's mock-windowing scenario: a test case with
window (100, 200) and mocks A(50,60), B(120,180), C(190,250), D(0,0) yields
exactly B and D. -/
theorem FilterTcsMocks_window_example :
    FilterTcsMocks ⟨("tc"), 100, 200⟩
        [⟨("A"), ("api.keploy.io/v1beta1"), 50, 60⟩,
         ⟨("B"), ("api.keploy.io/v1beta1"), 120, 180⟩,
         ⟨("C"), ("api.keploy.io/v1beta1"), 190, 250⟩,
         ⟨("D"), ("api.keploy.io/v1beta1"), 0, 0⟩] =
      [⟨("B"), ("api.keploy.io/v1beta1"), 120, 180⟩,
       ⟨("D"), ("api.keploy.io/v1beta1"), 0, 0⟩] := by
  have h := (FilterTcsMocks_window ⟨("tc"), 100, 200⟩
        [⟨("A"), ("api.keploy.io/v1beta1"), 50, 60⟩,
         ⟨("B"), ("api.keploy.io/v1beta1"), 120, 180⟩,
         ⟨("C"), ("api.keploy.io/v1beta1"), 190, 250⟩,
         ⟨("D"), ("api.keploy.io/v1beta1"), 0, 0⟩]).1 (by decide) (by decide)
  rw [h]
  decide

/-! ## `utils.Stop` (src/utils/ctx.go lines 41-61)

The package-level `cancel` variable is modelled by a Boolean `cancelSet`
(whether `SetCancel` has installed a function); the returned error by an
`isErr` flag; whether the cancel function ran by `cancelInvoked`. -/

structure StopResult where
  isErr : Bool
  cancelInvoked : Bool
deriving DecidableEq, Repr

/-- `Stop` (ctx.go lines 41-61): nil logger, unset cancel function, and empty
reason each return an error without invoking `cancel`; otherwise `cancel()`
runs and nil is returned. -/
def Stop (loggerSet : Bool) (cancelSet : Bool) (reason : String) : StopResult :=
  if !loggerSet then ⟨true, false⟩
  else if !cancelSet then ⟨true, false⟩
  else if reason = "" then ⟨true, false⟩
  else ⟨false, true⟩

/-- Claim C7: `Stop` errors exactly when the logger is nil, the cancel
function is unset, or the reason is empty; the cancel function is invoked
exactly in the non-error case. -/
theorem stop_error_conditions (loggerSet cancelSet : Bool) (reason : String) :
    ((Stop loggerSet cancelSet reason).isErr = true ↔
      (loggerSet = false ∨ cancelSet = false ∨ reason = "")) ∧
    (Stop loggerSet cancelSet reason).cancelInvoked =
      !(Stop loggerSet cancelSet reason).isErr := by
  cases loggerSet <;> cases cancelSet <;>
    by_cases h : reason = "" <;> simp [Stop, h]

/-- Witness for C7: a set logger and cancel function with an empty reason is
an error. -/
theorem stop_error_example : (Stop true true ("")).isErr = true :=
  (stop_error_conditions true true ("")).1.mpr (Or.inr (Or.inr rfl))

/-! ## `Mongo.MatchType` (mongo file in grpc/encode.go part, lines 106-112)

Buffers are lists of bytes; `binary.LittleEndian.Uint32 (buffer[0:4])` is the
little-endian value of the first four bytes. -/

/-- Little-endian unsigned 32-bit value of the first four bytes of `b`
(bytes reduced modulo 256, matching machine byte semantics). -/
def le32 (b : List Nat) : Nat :=
  (b.getD 0 0) % 256 + ((b.getD 1 0) % 256) * 256 +
    ((b.getD 2 0) % 256) * 65536 + ((b.getD 3 0) % 256) * 16777216

/-- `Mongo.MatchType`: false for buffers shorter than 4 bytes, else tests
whether the 4-byte little-endian length prefix equals the buffer length. -/
def MatchType (buffer : List Nat) : Bool :=
  if buffer.length < 4 then false
  else le32 buffer == buffer.length

/-- Claim C8: `MatchType` returns true iff the buffer has at least 4 bytes and
its little-endian 32-bit prefix equals its total length; in particular every
buffer shorter than 4 bytes yields false. -/
theorem mongoMatchType_length_rule (b : List Nat) :
    (MatchType b = true ↔ (4 ≤ b.length ∧ le32 b = b.length)) ∧
    (b.length < 4 → MatchType b = false) := by
  unfold MatchType
  by_cases h : b.length < 4
  · rw [if_pos h]
    refine ⟨⟨fun hc => absurd hc (by simp), fun hc => absurd hc.1 (by omega)⟩, fun _ => rfl⟩
  · rw [if_neg h]
    refine ⟨?_, fun hlt => absurd hlt h⟩
    rw [beq_iff_eq]
    exact ⟨fun hc => ⟨by omega, hc⟩, fun hc => hc.2⟩

/-- Witness for C8: the buffer `[4,0,0,0]` matches (its length prefix is 4 and
it is 4 bytes long), and `MatchType` confirms it. -/
theorem mongoMatchType_example : MatchType [4, 0, 0, 0] = true :=
  (mongoMatchType_length_rule [4, 0, 0, 0]).1.mpr (by decide)

/-! ## Connection factory (`ProcessActiveTrackers`, factory.go lines 40-79)

A tracker's observable behaviour during one sweep is captured by the values
its collaborators would return: `complete`, `requestBuf`, `responseBuf`,
`reqTs`, `resTs` are the five results of `tracker.IsComplete()`; `inactive` is
the result of `tracker.IsInactive(threshold)`; `parseReqOk` / `parseRespOk`
are whether `pkg.ParseHTTPRequest` / `pkg.ParseHTTPResponse` succeed on the
buffers; `readReqBodyOk` / `readRespBodyOk` are whether the two `io.ReadAll`
calls inside `capture` succeed.  The registry map is an association list in
iteration order.  The claim assumes the context is never cancelled, so the
`ctx.Done()` select branch is omitted (its default branch always runs). -/

structure TrackerM where
  complete : Bool
  requestBuf : List Nat
  responseBuf : List Nat
  reqTs : Nat
  resTs : Nat
  inactive : Bool
  parseReqOk : Bool
  parseRespOk : Bool
  readReqBodyOk : Bool
  readRespBodyOk : Bool
deriving DecidableEq, Repr

/-- The `models.TestCase` fields relevant to the claims: the raw buffers the
parsed request/response came from, and the two timestamps copied from the
tracker (`HttpReq.Timestamp` and `HttpResp.Timestamp`). -/
structure TestCaseM where
  reqBuf : List Nat
  respBuf : List Nat
  reqTimestamp : Nat
  resTimestamp : Nat
deriving DecidableEq, Repr

/-- `capture` (factory.go lines 94-133): reads both bodies; on success sends a
test case whose `HttpReq.Timestamp` / `HttpResp.Timestamp` are the tracker's
timestamps.  A failed `io.ReadAll` returns without sending. -/
def capture (tr : TrackerM) : Option TestCaseM :=
  if !tr.readReqBodyOk then none
  else if !tr.readRespBodyOk then none
  else some ⟨tr.requestBuf, tr.responseBuf, tr.reqTs, tr.resTs⟩

/-- One iteration of the `for connID, tracker := range factory.connections`
loop (factory.go lines 44-73): returns the test case sent (if any) and
whether the tracker was appended to `trackersToDelete`.  Complete trackers
are never appended to `trackersToDelete`; only incomplete inactive ones are. -/
def processOne (tr : TrackerM) : Option TestCaseM × Bool :=
  if tr.complete then
    if tr.requestBuf.length == 0 || tr.responseBuf.length == 0 then (none, false)
    else if !tr.parseReqOk then (none, false)
    else if !tr.parseRespOk then (none, false)
    else (capture tr, false)
  else if tr.inactive then (none, true)
  else (none, false)

/-- The sweep loop: emitted test cases in iteration order and the collected
`trackersToDelete` connection ids. -/
def sweep : List (Nat × TrackerM) → List TestCaseM × List Nat
  | [] => ([], [])
  | (connID, tr) :: rest =>
    let r := sweep rest
    match processOne tr with
    | (some tc, _) => (tc :: r.1, r.2)
    | (none, true) => (r.1, connID :: r.2)
    | (none, false) => (r.1, r.2)

/-- `ProcessActiveTrackers` (factory.go lines 40-79): runs the sweep loop,
then deletes the collected ids from the registry.  Returns the emitted test
cases and the registry after deletion. -/
def ProcessActiveTrackers (conns : List (Nat × TrackerM)) :
    List TestCaseM × List (Nat × TrackerM) :=
  let r := sweep conns
  (r.1, conns.filter (fun p => !(r.2.contains p.1)))

theorem processOne_some (tr : TrackerM) (tc : TestCaseM) (d : Bool)
    (h : processOne tr = (some tc, d)) :
    tr.complete = true ∧ tr.requestBuf ≠ [] ∧ tr.responseBuf ≠ [] ∧
      tc.reqTimestamp = tr.reqTs ∧ tc.resTimestamp = tr.resTs := by
  unfold processOne capture at h
  split at h
  · split at h
    · simp at h
    · split at h
      · simp at h
      · split at h
        · simp at h
        · split at h
          · simp at h
          · split at h
            · simp at h
            · rename_i hcomp hbuf _ _ _ _
              simp only [Prod.mk.injEq, Option.some.injEq] at h
              refine ⟨hcomp, ?_, ?_, ?_, ?_⟩
              · intro hnil
                apply hbuf
                simp [hnil]
              · intro hnil
                apply hbuf
                simp [hnil]
              · rw [← h.1]
              · rw [← h.1]
  · split at h
    · simp at h
    · simp at h

/-- Claim C3: every test case emitted by `ProcessActiveTrackers` comes from a
registered tracker that is complete with non-empty request and response
buffers, and carries that tracker's request and response timestamps. -/
theorem processActiveTrackers_emitted_provenance
    (conns : List (Nat × TrackerM)) (tc : TestCaseM)
    (h : tc ∈ (ProcessActiveTrackers conns).1) :
    ∃ p ∈ conns, p.2.complete = true ∧ p.2.requestBuf ≠ [] ∧
      p.2.responseBuf ≠ [] ∧ tc.reqTimestamp = p.2.reqTs ∧
      tc.resTimestamp = p.2.resTs := by
  unfold ProcessActiveTrackers at h
  simp only at h
  induction conns with
  | nil => simp [sweep] at h
  | cons p rest ih =>
    rw [sweep] at h
    rcases hp : processOne p.2 with ⟨otc, d⟩
    rcases otc with _ | tc'
    · rcases d with _ | _
      · rw [hp] at h
        rcases ih h with ⟨q, hq, hrest⟩
        exact ⟨q, List.mem_cons_of_mem _ hq, hrest⟩
      · rw [hp] at h
        rcases ih h with ⟨q, hq, hrest⟩
        exact ⟨q, List.mem_cons_of_mem _ hq, hrest⟩
    · rw [hp] at h
      simp only [List.mem_cons] at h
      rcases h with h | h
      · subst h
        exact ⟨p, List.mem_cons_self _ _, processOne_some p.2 tc d hp⟩
      · rcases ih h with ⟨q, hq, hrest⟩
        exact ⟨q, List.mem_cons_of_mem _ hq, hrest⟩

/-- Witness for C3: a registry with one complete tracker emits one test case,
and the theorem locates its source tracker. -/
theorem processActiveTrackers_emitted_provenance_example :
    ∃ p ∈ [((1 : Nat), (⟨true, [1], [2], 5, 6, false, true, true, true, true⟩ : TrackerM))],
      p.2.complete = true ∧ p.2.requestBuf ≠ [] ∧ p.2.responseBuf ≠ [] ∧
      (⟨[1], [2], 5, 6⟩ : TestCaseM).reqTimestamp = p.2.reqTs ∧
      (⟨[1], [2], 5, 6⟩ : TestCaseM).resTimestamp = p.2.resTs :=
  processActiveTrackers_emitted_provenance
    [((1 : Nat), ⟨true, [1], [2], 5, 6, false, true, true, true, true⟩)]
    ⟨[1], [2], 5, 6⟩ (by decide)

/-- Claim C2 is violated by the code: a complete tracker with non-empty,
parseable buffers does have its test case sent, but it is never marked for
deletion (`trackersToDelete` only collects inactive incomplete trackers), so
it remains in the registry after the sweep — contradicting the function's own
doc comment ("If so, it captures the ingress call and deletes the tracker")
and the spec.  Concrete evaluation at such a tracker. -/
theorem processActiveTrackers_keeps_complete_tracker :
    ProcessActiveTrackers
        [((1 : Nat), (⟨true, [1], [2], 5, 6, false, true, true, true, true⟩ : TrackerM))] =
      ([⟨[1], [2], 5, 6⟩],
       [((1 : Nat), (⟨true, [1], [2], 5, 6, false, true, true, true, true⟩ : TrackerM))]) := by
  decide

/-! ## Replay test loop (`RunTestSet`, part_001 lines 282-386)

`models.TestSetStatus` values used by the replayer. -/

inductive TestSetStatus where
  | running
  | passed
  | failed
  | appHalted
  | internalErr
  | faultUserApp
  | userAbort
deriving DecidableEq, Repr

/-- Outcome of one iteration of the per-test-case loop, as determined by the
collaborators the loop calls, in source order: `GetFilteredMocks`,
`GetUnFilteredMocks` and `SetMocks` can error; `SimulateRequest` can error;
otherwise the comparison yields `testPass`, the comparison result can be nil
(`resultNil`), and `InsertTestCaseResult` can error (`insertErr`). -/
inductive TcEvent where
  | getFilteredErr
  | getUnfilteredErr
  | setMocksErr
  | simulateErr
  | simOk (testPass : Bool) (resultNil : Bool) (insertErr : Bool)
deriving DecidableEq, Repr

/-- State when the loop finishes: the test-set status, the `success` and
`failure` counters, the names whose `TestResult` was persisted (in order),
and the test cases left unprocessed by an early `break`. -/
structure LoopResult where
  status : TestSetStatus
  success : Nat
  failure : Nat
  persisted : List String
  rem : List (String × TcEvent)
deriving DecidableEq, Repr

/-- The `for _, testCase := range testCases` loop of `RunTestSet` (part_001
lines 282-386).  The concurrent error watcher is modelled as silent: with the
context never cancelled and no mock/app error, `exitLoopChan` never fires and
the select at the top of the loop takes its default branch.  Mock-window
errors, a nil comparison result and a failed result insert set `internalErr`
and break; a `SimulateRequest` error sets `userAbort` and breaks; a
non-passing comparison sets `failed` and continues.  Counters are bumped
before the nil-result check, exactly as in the source. -/
def runLoop : List (String × TcEvent) → TestSetStatus → Nat → Nat → LoopResult
  | [], st, s, f => ⟨st, s, f, [], []⟩
  | (n, e) :: es, st, s, f =>
    match e with
    | .getFilteredErr => ⟨.internalErr, s, f, [], es⟩
    | .getUnfilteredErr => ⟨.internalErr, s, f, [], es⟩
    | .setMocksErr => ⟨.internalErr, s, f, [], es⟩
    | .simulateErr => ⟨.userAbort, s, f, [], es⟩
    | .simOk testPass resultNil insertErr =>
      let s' := if testPass then s + 1 else s
      let f' := if testPass then f else f + 1
      if resultNil then ⟨.internalErr, s', f', [], es⟩
      else if insertErr then ⟨.internalErr, s', f', [], es⟩
      else
        let st' := if testPass then st else .failed
        let r := runLoop es st' s' f'
        ⟨r.status, r.success, r.failure, n :: r.persisted, r.rem⟩

/-- The status written into the final report (part_001 lines 388-399): a
failed `GetTestCaseResults` overrides the loop status with `internalErr`
unless the context was cancelled. -/
def reportedStatus (loopStatus : TestSetStatus) (getResultsErr : Bool)
    (ctxCanceled : Bool) : TestSetStatus :=
  if getResultsErr && !ctxCanceled then .internalErr else loopStatus

theorem runLoop_break_status (es : List (String × TcEvent))
    (st : TestSetStatus) (s f : Nat) :
    (runLoop es st s f).rem = [] ∨ (runLoop es st s f).status = .internalErr ∨
      (runLoop es st s f).status = .userAbort := by
  induction es generalizing st s f with
  | nil => left; rfl
  | cons p es ih =>
    rcases p with ⟨n, e⟩
    cases e with
    | getFilteredErr => right; left; rfl
    | getUnfilteredErr => right; left; rfl
    | setMocksErr => right; left; rfl
    | simulateErr => right; right; rfl
    | simOk testPass resultNil insertErr =>
      cases resultNil with
      | true => right; left; rfl
      | false =>
        cases insertErr with
        | true => right; left; rfl
        | false =>
          simp only [runLoop]
          exact ih _ _ _

/-- Claim C4 as stated is false: the loop also breaks early on a
`SimulateRequest` error, which is none of the listed internal errors, and the
status it leaves is `userAbort`, not `internalErr`.  Concrete run: the first
test case's simulation errors, the loop stops with the second unprocessed. -/
theorem runTestSetLoop_breaks_on_simulate_error :
    runLoop [(("tc-1"), .simulateErr), (("tc-2"), .simOk true false false)]
        .passed 0 0 =
      ⟨.userAbort, 0, 0, [], [(("tc-2"), .simOk true false false)]⟩ ∧
    TestSetStatus.userAbort ≠ TestSetStatus.internalErr := by
  exact ⟨rfl, by decide⟩

/-- Claim C4, amended: a non-passing comparison (with a non-nil result and a
successful insert) sets the status to `failed` and the loop proceeds; a
passing one proceeds with the status unchanged; the loop breaks early only on
the internal errors (mock-window errors, nil result, failed insert), which
set `internalErr`, or on a `SimulateRequest` error, which sets `userAbort`. -/
theorem runTestSetLoop_step_characterization (n : String)
    (es : List (String × TcEvent)) (st : TestSetStatus) (s f : Nat) :
    (runLoop ((n, .simOk false false false) :: es) st s f =
      ⟨(runLoop es .failed s (f + 1)).status, (runLoop es .failed s (f + 1)).success,
       (runLoop es .failed s (f + 1)).failure, n :: (runLoop es .failed s (f + 1)).persisted,
       (runLoop es .failed s (f + 1)).rem⟩) ∧
    (runLoop ((n, .simOk true false false) :: es) st s f =
      ⟨(runLoop es st (s + 1) f).status, (runLoop es st (s + 1) f).success,
       (runLoop es st (s + 1) f).failure, n :: (runLoop es st (s + 1) f).persisted,
       (runLoop es st (s + 1) f).rem⟩) ∧
    (runLoop ((n, .getFilteredErr) :: es) st s f = ⟨.internalErr, s, f, [], es⟩) ∧
    (runLoop ((n, .getUnfilteredErr) :: es) st s f = ⟨.internalErr, s, f, [], es⟩) ∧
    (runLoop ((n, .setMocksErr) :: es) st s f = ⟨.internalErr, s, f, [], es⟩) ∧
    (∀ testPass, runLoop ((n, .simOk testPass true false) :: es) st s f =
      ⟨.internalErr, if testPass then s + 1 else s, if testPass then f else f + 1, [], es⟩) ∧
    (∀ testPass, runLoop ((n, .simOk testPass false true) :: es) st s f =
      ⟨.internalErr, if testPass then s + 1 else s, if testPass then f else f + 1, [], es⟩) ∧
    (runLoop ((n, .simulateErr) :: es) st s f = ⟨.userAbort, s, f, [], es⟩) ∧
    ((runLoop es st s f).rem = [] ∨ (runLoop es st s f).status = .internalErr ∨
      (runLoop es st s f).status = .userAbort) := by
  refine ⟨rfl, rfl, rfl, rfl, rfl, fun testPass => rfl, fun testPass => rfl, rfl, ?_⟩
  exact runLoop_break_status es st s f

/-- Decides whether a loop iteration runs to its end without breaking:
exactly the `simOk` outcomes with a non-nil result and a successful insert. -/
def nonBreaking : TcEvent → Bool
  | .simOk _ false false => true
  | _ => false

theorem nonBreaking_shape (e : TcEvent) (h : nonBreaking e = true) :
    ∃ testPass, e = .simOk testPass false false := by
  cases e with
  | simOk testPass resultNil insertErr =>
    cases resultNil with
    | true => simp [nonBreaking] at h
    | false =>
      cases insertErr with
      | true => simp [nonBreaking] at h
      | false => exact ⟨testPass, rfl⟩
  | getFilteredErr => simp [nonBreaking] at h
  | getUnfilteredErr => simp [nonBreaking] at h
  | setMocksErr => simp [nonBreaking] at h
  | simulateErr => simp [nonBreaking] at h

/-- Claim C10: if every earlier test case ran without breaking and then
`SimulateRequest` errors on test case `n`, the loop stops there with status
`userAbort` (which, absent a later `GetTestCaseResults` error, is the status
in the final report), the remaining test cases are unprocessed, and exactly
the earlier test cases — not `n` — have a persisted `TestResult`. -/
theorem runTestSetLoop_simulate_error_aborts
    (pre : List (String × TcEvent)) (n : String)
    (post : List (String × TcEvent)) (st : TestSetStatus) (s f : Nat)
    (h : ∀ p ∈ pre, nonBreaking p.2 = true) :
    (runLoop (pre ++ (n, .simulateErr) :: post) st s f).status = .userAbort ∧
    (runLoop (pre ++ (n, .simulateErr) :: post) st s f).rem = post ∧
    (runLoop (pre ++ (n, .simulateErr) :: post) st s f).persisted = pre.map Prod.fst ∧
    reportedStatus (runLoop (pre ++ (n, .simulateErr) :: post) st s f).status false false =
      .userAbort := by
  induction pre generalizing st s f with
  | nil => exact ⟨rfl, rfl, rfl, rfl⟩
  | cons p pre ih =>
    rcases p with ⟨m, e⟩
    rcases nonBreaking_shape e (h ⟨m, e⟩ (List.mem_cons_self _ _)) with ⟨testPass, he⟩
    subst he
    have h' : ∀ q ∈ pre, nonBreaking q.2 = true :=
      fun q hq => h q (List.mem_cons_of_mem _ hq)
    cases testPass with
    | false =>
      have ihr := ih TestSetStatus.failed s (f + 1) h'
      exact ⟨ihr.1, ihr.2.1, congrArg (List.cons m) ihr.2.2.1, ihr.2.2.2⟩
    | true =>
      have ihr := ih st (s + 1) f h'
      exact ⟨ihr.1, ihr.2.1, congrArg (List.cons m) ihr.2.2.1, ihr.2.2.2⟩

/-- Witness for C10: one earlier passing test case, then a simulation error,
then one unreached test case. -/
theorem runTestSetLoop_simulate_error_example :
    (runLoop [(("tc-a"), .simOk true false false), (("tc-b"), .simulateErr),
        (("tc-c"), .simOk true false false)] .passed 0 0).status = .userAbort ∧
    (runLoop [(("tc-a"), .simOk true false false), (("tc-b"), .simulateErr),
        (("tc-c"), .simOk true false false)] .passed 0 0).rem =
      [(("tc-c"), .simOk true false false)] ∧
    (runLoop [(("tc-a"), .simOk true false false), (("tc-b"), .simulateErr),
        (("tc-c"), .simOk true false false)] .passed 0 0).persisted = [("tc-a")] ∧
    reportedStatus (runLoop [(("tc-a"), .simOk true false false), (("tc-b"), .simulateErr),
        (("tc-c"), .simOk true false false)] .passed 0 0).status false false = .userAbort :=
  runTestSetLoop_simulate_error_aborts
    [(("tc-a"), .simOk true false false)] ("tc-b")
    [(("tc-c"), .simOk true false false)] .passed 0 0 (by decide)

/-! ## Replayer `Start` (part_001 lines 50-125)

Each call to `RunTestSet` either returns a non-nil error or a status. -/

inductive RunOutcome where
  | err
  | ok (st : TestSetStatus)
deriving DecidableEq, Repr

/-- Observable outcome of `Start`: whether a non-nil error was returned to
the caller, whether `printSummary` ran, and the `testRunResult` value it was
handed (meaningful only when the summary ran). -/
structure StartOutcome where
  returnedErr : Bool
  summaryPrinted : Bool
  verdict : Bool
deriving DecidableEq, Repr

/-- The `for _, testSetId := range testSetIds` loop of `Start` (part_001
lines 89-124), carrying `testSetResult` and `testRunResult` exactly as the
source does: a `RunTestSet` error returns that error; `userAbort` returns nil
immediately without a summary; `appHalted`, `internalErr` and `faultUserApp`
clear `testSetResult` and abort after updating `testRunResult` (so no summary
is printed and nil is returned); `failed` clears and `passed` sets
`testSetResult`; a status outside the switch (only `running`) leaves it
untouched.  After the loop, `printSummary` runs and nil is returned. -/
def startLoop : List RunOutcome → Bool → Bool → StartOutcome
  | [], _, trr => ⟨false, true, trr⟩
  | .err :: _, _, trr => ⟨true, false, trr⟩
  | .ok st :: rest, tsr, trr =>
    match st with
    | .userAbort => ⟨false, false, trr⟩
    | .appHalted => ⟨false, false, trr && false⟩
    | .internalErr => ⟨false, false, trr && false⟩
    | .faultUserApp => ⟨false, false, trr && false⟩
    | .failed => startLoop rest false (trr && false)
    | .passed => startLoop rest true (trr && true)
    | .running => startLoop rest tsr (trr && tsr)

/-- `Start`'s test-set phase with the source's initial accumulator values
(`testSetResult := false`, `testRunResult := true`). -/
def startRun (rs : List RunOutcome) : StartOutcome :=
  startLoop rs false true

/-- True exactly on the aborting statuses of the `Start` switch. -/
def isAbortStatus : TestSetStatus → Bool
  | .appHalted => true
  | .internalErr => true
  | .faultUserApp => true
  | _ => false

/-- The test sets the `Start` loop actually executes: everything up to and
including the first aborting status. -/
def executedSets : List TestSetStatus → List TestSetStatus
  | [] => []
  | st :: rest => if isAbortStatus st then [st] else st :: executedSets rest

/-- Claim C5 as stated is false: a run whose only test set ends in `failed`
still returns a nil error from `Start` (the failure only clears the verdict
handed to the summary printer). -/
theorem start_returns_nil_on_failed_set :
    (startRun [.ok .failed]).returnedErr = false ∧
    (startRun [.ok .failed]).verdict = false ∧
    TestSetStatus.failed ≠ TestSetStatus.passed := by
  exact ⟨rfl, rfl, by decide⟩

theorem startLoop_ok_spec (sts : List TestSetStatus) (tsr trr : Bool)
    (h1 : TestSetStatus.userAbort ∉ sts) (h2 : TestSetStatus.running ∉ sts) :
    (startLoop (sts.map .ok) tsr trr).returnedErr = false ∧
    ((startLoop (sts.map .ok) tsr trr).verdict = true ↔
      (trr = true ∧ ∀ st ∈ executedSets sts, st = TestSetStatus.passed)) := by
  induction sts generalizing tsr trr with
  | nil =>
    refine ⟨rfl, ?_⟩
    simp [startLoop, executedSets]
  | cons st rest ih =>
    have h1' : TestSetStatus.userAbort ∉ rest := fun hm => h1 (List.mem_cons_of_mem _ hm)
    have h2' : TestSetStatus.running ∉ rest := fun hm => h2 (List.mem_cons_of_mem _ hm)
    cases st with
    | userAbort => exact absurd (List.mem_cons_self _ _) h1
    | running => exact absurd (List.mem_cons_self _ _) h2
    | appHalted =>
      refine ⟨rfl, ?_⟩
      constructor
      · intro hv
        exact absurd hv (by simp [startLoop])
      · rintro ⟨-, hall⟩
        have := hall TestSetStatus.appHalted (by simp [executedSets, isAbortStatus])
        exact absurd this (by decide)
    | internalErr =>
      refine ⟨rfl, ?_⟩
      constructor
      · intro hv
        exact absurd hv (by simp [startLoop])
      · rintro ⟨-, hall⟩
        have := hall TestSetStatus.internalErr (by simp [executedSets, isAbortStatus])
        exact absurd this (by decide)
    | faultUserApp =>
      refine ⟨rfl, ?_⟩
      constructor
      · intro hv
        exact absurd hv (by simp [startLoop])
      · rintro ⟨-, hall⟩
        have := hall TestSetStatus.faultUserApp (by simp [executedSets, isAbortStatus])
        exact absurd this (by decide)
    | failed =>
      have ihr := ih false (trr && false) h1' h2'
      refine ⟨ihr.1, ?_⟩
      rw [List.map_cons]
      show (startLoop (rest.map .ok) false (trr && false)).verdict = true ↔ _
      rw [ihr.2]
      constructor
      · rintro ⟨hf, -⟩
        exact absurd hf (by simp)
      · rintro ⟨-, hall⟩
        have := hall TestSetStatus.failed (by simp [executedSets, isAbortStatus])
        exact absurd this (by decide)
    | passed =>
      have ihr := ih true (trr && true) h1' h2'
      refine ⟨ihr.1, ?_⟩
      rw [List.map_cons]
      show (startLoop (rest.map .ok) true (trr && true)).verdict = true ↔ _
      rw [ihr.2]
      simp only [Bool.and_true]
      constructor
      · rintro ⟨ht, hall⟩
        refine ⟨ht, ?_⟩
        intro s hs
        rw [executedSets] at hs
        rw [if_neg (by simp [isAbortStatus])] at hs
        rcases List.mem_cons.mp hs with h | h
        · rw [h]
        · exact hall s h
      · rintro ⟨ht, hall⟩
        refine ⟨ht, ?_⟩
        intro s hs
        apply hall
        rw [executedSets, if_neg (by simp [isAbortStatus])]
        exact List.mem_cons_of_mem _ hs

/-- Claim C5, amended: when booting, test-set listing and every `RunTestSet`
call succeed, `Start` returns a nil error regardless of the test-set
statuses; the success verdict it computes (and hands to the summary printer)
is true iff every executed test set ended in `passed`.  (Runs containing
`userAbort` return nil without the loop updating the verdict further, and
`running` is never returned by `RunTestSet`; both are excluded here.) -/
theorem start_verdict_iff_all_passed (sts : List TestSetStatus)
    (h1 : TestSetStatus.userAbort ∉ sts) (h2 : TestSetStatus.running ∉ sts) :
    (startRun (sts.map .ok)).returnedErr = false ∧
    ((startRun (sts.map .ok)).verdict = true ↔
      ∀ st ∈ executedSets sts, st = TestSetStatus.passed) := by
  have h := startLoop_ok_spec sts false true h1 h2
  refine ⟨h.1, ?_⟩
  rw [startRun, h.2]
  simp

/-- Witness for C5's amended claim: a single failed test set yields a nil
error and a false verdict. -/
theorem start_verdict_example :
    (startRun ([TestSetStatus.failed].map .ok)).returnedErr = false ∧
    ((startRun ([TestSetStatus.failed].map .ok)).verdict = true ↔
      ∀ st ∈ executedSets [TestSetStatus.failed], st = TestSetStatus.passed) :=
  start_verdict_iff_all_passed [TestSetStatus.failed] (by decide) (by decide)

/-! ## Summary sort order (`printSummary`, part_001 lines 487-503)

The comparator passed to `sort.SliceStable` splits each name on `-`; when
either name has fewer than three parts it compares the raw strings
lexicographically; otherwise it parses the third part with `strconv.Atoi`
and compares numerically, returning false when either parse fails.  Go's
byte-wise string comparison coincides with code-point comparison for the
ASCII names involved.  `sort.SliceStable` is modelled by a stable insertion
sort, which agrees with it on every comparator that is a strict weak order,
as the ones evaluated here are. -/

/-- `strings.Split` on a single-character separator. -/
def splitOnCharAux (sep : Char) : List Char → List Char → List (List Char)
  | [], acc => [acc.reverse]
  | c :: cs, acc =>
    if c = sep then acc.reverse :: splitOnCharAux sep cs []
    else splitOnCharAux sep cs (c :: acc)

def goSplitDash (s : String) : List String :=
  (splitOnCharAux ('-') s.data []).map (fun cs => String.mk cs)

/-- Go's byte-wise `<` on strings, on code points (identical for ASCII). -/
def charListLt : List Char → List Char → Bool
  | [], [] => false
  | [], _ :: _ => true
  | _ :: _, [] => false
  | a :: as, b :: bs =>
    if a.toNat < b.toNat then true
    else if b.toNat < a.toNat then false
    else charListLt as bs

def goStringLess (a b : String) : Bool :=
  charListLt a.data b.data

/-- `strconv.Atoi`: optional sign, at least one digit, all digits. -/
def goAtoi (s : String) : Option Int :=
  match s.data with
  | [] => none
  | c :: rest =>
    let ds := if c = '-' ∨ c = '+' then rest else c :: rest
    let neg := c = '-'
    if ds = [] then none
    else if ds.all (fun d => d.isDigit) then
      let n := ds.foldl (fun acc d => acc * 10 + (d.toNat - ('0').toNat)) 0
      some (if neg then -(n : Int) else (n : Int))
    else none

/-- The closure passed to `sort.SliceStable` in `printSummary` (part_001
lines 491-503). -/
def testSuiteLess (a b : String) : Bool :=
  let pa := goSplitDash a
  let pb := goSplitDash b
  if pa.length < 3 ∨ pb.length < 3 then goStringLess a b
  else
    match goAtoi (pa.getD 2 ("")), goAtoi (pb.getD 2 ("")) with
    | some i, some j => decide (i < j)
    | _, _ => false

/-- Stable insertion: `x` (earlier in the original order) is placed before
the first element not strictly less than it. -/
def insertStable (less : α → α → Bool) (x : α) : List α → List α
  | [] => [x]
  | y :: ys => if less y x then y :: insertStable less x ys else x :: y :: ys

/-- Stable sort modelling `sort.SliceStable`. -/
def sortSliceStable (less : α → α → Bool) : List α → List α
  | [] => []
  | x :: xs => insertStable less x (sortSliceStable less xs)

/-- Claim C6 as stated is false: the names `set-N` split into only two
dash-separated parts, so the comparator takes its lexicographic fallback and
the spec's example sorts to the lexicographic order, not the natural one. -/
theorem testSuiteSort_two_part_names_lexicographic :
    sortSliceStable testSuiteLess [("set-1"), ("set-2"), ("set-10")] =
      [("set-1"), ("set-10"), ("set-2")] ∧
    [("set-1"), ("set-10"), ("set-2")] ≠ [("set-1"), ("set-2"), ("set-10")] := by
  exact ⟨by decide, by decide⟩

/-- Claim C6, amended: the numeric sort on the trailing suffix applies to
names with at least three dash-separated parts whose third part parses as an
integer — so `test-set-N` names sort naturally (`test-set-10` after
`test-set-2`) — while names with fewer than three parts, such as the claim's
`set-N` examples, are compared lexicographically. -/
theorem testSuiteSort_natural_on_three_part_names :
    sortSliceStable testSuiteLess
        [("test-set-2"), ("test-set-10"), ("test-set-1")] =
      [("test-set-1"), ("test-set-2"), ("test-set-10")] ∧
    sortSliceStable testSuiteLess [("set-1"), ("set-2"), ("set-10")] =
      [("set-1"), ("set-10"), ("set-2")] := by
  exact ⟨by decide, by decide⟩

/-! ## Mongo `recordMessage` (mongo file in grpc/encode.go part, lines 146-202)

A `models.MongoRequest` is reduced to what the dedup loop reads from it: the
opcode and the payload it compares (`OpQuery.Query`, the head of
`OpMessage.Sections`, or `opReq.String()` for everything else).
`isHeartBeat` lives outside src/, so its verdict is a Boolean parameter.
The nested loop ranges over the snapshot of the global `configRequests`
slice taken when the loop starts (Go's `range` evaluates the slice header
once), while appends grow the live slice; a `break` inside the `switch`
leaves only the switch, so after a match the remaining requests are still
appended.  A request with `OpMsg` and empty `Sections` makes the Go code
panic on `Sections[0]`; the model reads `headD ""` there and the theorem is
restricted to panic-free inputs. -/

inductive MongoReqMsg where
  | opQuery (query : String)
  | opMsg (sections : List String)
  | opOther
deriving DecidableEq, Repr

/-- The payload the dedup loop compares and appends for one request. -/
def reqPayload (opReqStr : String) : MongoReqMsg → String
  | .opQuery q => q
  | .opMsg ss => ss.headD ("")
  | .opOther => opReqStr

/-- Requests on which the Go code does not panic. -/
def msgWellFormed : MongoReqMsg → Bool
  | .opMsg ss => !ss.isEmpty
  | _ => true

/-- Inner `for _, req := range mongoRequests` loop for a fixed snapshot
element `v`: a request whose payload equals `v` clears `shouldRecordCalls`
(the switch-level `break` skips its append); any other request's payload is
appended to the live `configRequests`. -/
def innerLoop (opReqStr v : String) :
    List MongoReqMsg → List String → Bool → List String × Bool
  | [], cfg, should => (cfg, should)
  | r :: rs, cfg, should =>
    if reqPayload opReqStr r = v then innerLoop opReqStr v rs cfg false
    else innerLoop opReqStr v rs (cfg ++ [reqPayload opReqStr r]) should

/-- Outer `for _, v := range configRequests` loop over the snapshot. -/
def outerLoop (opReqStr : String) (reqs : List MongoReqMsg) :
    List String → List String → Bool → List String × Bool
  | [], cfg, should => (cfg, should)
  | v :: vs, cfg, should =>
    let r := innerLoop opReqStr v reqs cfg should
    outerLoop opReqStr reqs vs r.1 r.2

/-- Go map lookup on the small metadata maps, as an association list whose
keys are distinct. -/
def lookupMeta (k : String) : List (String × String) → Option String
  | [] => none
  | (k', v) :: rest => if k' = k then some v else lookupMeta k rest

structure MongoMockM where
  metadata : List (String × String)
  reqTs : Nat
  resTs : Nat
deriving DecidableEq, Repr

/-- `recordMessage` (lines 146-202): builds `meta1` with the operation name,
adds `type=config` and runs the dedup loop when the request is a heartbeat,
and emits the mock on the channel only when `shouldRecordCalls` survived.
Returns the emitted mock (if any) and the updated `configRequests`. -/
def recordMessage (heartbeat : Bool) (reqs : List MongoReqMsg)
    (opReqStr : String) (cfg : List String) (reqTsMock nowTs : Nat) :
    Option MongoMockM × List String :=
  if heartbeat then
    let r := outerLoop opReqStr reqs cfg cfg true
    (if r.2 then some ⟨[(("operation"), opReqStr), (("type"), ("config"))], reqTsMock, nowTs⟩
     else none, r.1)
  else
    (some ⟨[(("operation"), opReqStr)], reqTsMock, nowTs⟩, cfg)

theorem innerLoop_false (opReqStr v : String) (rs : List MongoReqMsg)
    (cfg : List String) :
    (innerLoop opReqStr v rs cfg false).2 = false := by
  induction rs generalizing cfg with
  | nil => rfl
  | cons r rs ih =>
    rw [innerLoop]
    split
    · exact ih cfg
    · exact ih (cfg ++ [reqPayload opReqStr r])

theorem innerLoop_hits (opReqStr v : String) (rs : List MongoReqMsg)
    (cfg : List String) (should : Bool) (r : MongoReqMsg)
    (hmem : r ∈ rs) (hpay : reqPayload opReqStr r = v) :
    (innerLoop opReqStr v rs cfg should).2 = false := by
  induction rs generalizing cfg should with
  | nil => cases hmem
  | cons r' rs ih =>
    rw [innerLoop]
    split
    · exact innerLoop_false opReqStr v rs cfg
    · rcases List.mem_cons.mp hmem with h | h
      · subst h
        rename_i hne
        exact absurd hpay hne
      · exact ih _ _ h

theorem outerLoop_false (opReqStr : String) (reqs : List MongoReqMsg)
    (vs cfg : List String) :
    (outerLoop opReqStr reqs vs cfg false).2 = false := by
  induction vs generalizing cfg with
  | nil => rfl
  | cons v vs ih =>
    rw [outerLoop]
    rw [innerLoop_false opReqStr v reqs cfg]
    exact ih _

theorem outerLoop_hits (opReqStr : String) (reqs : List MongoReqMsg)
    (vs cfg : List String) (should : Bool) (v : String)
    (hv : v ∈ vs) (hr : ∃ r ∈ reqs, reqPayload opReqStr r = v) :
    (outerLoop opReqStr reqs vs cfg should).2 = false := by
  induction vs generalizing cfg should with
  | nil => cases hv
  | cons v' vs ih =>
    rcases List.mem_cons.mp hv with h | h
    · subst h
      rw [outerLoop]
      rcases hr with ⟨r, hrm, hrp⟩
      rw [innerLoop_hits opReqStr v reqs cfg should r hrm hrp]
      exact outerLoop_false opReqStr reqs vs _
    · rw [outerLoop]
      exact ih _ _ h

/-- Claim C9: for a request classified as a heartbeat, any mock
`recordMessage` emits carries `metadata.type = config`; and when some request
payload is already present in `configRequests` (an identical heartbeat seen
earlier in the run), no mock is emitted.  Restricted to requests on which the
Go code does not panic (no `OpMsg` with empty `Sections`). -/
theorem recordMessage_heartbeat_config (reqs : List MongoReqMsg)
    (opReqStr : String) (cfg : List String) (reqTsMock nowTs : Nat)
    (_hwf : ∀ r ∈ reqs, msgWellFormed r = true) :
    (∀ mk, (recordMessage true reqs opReqStr cfg reqTsMock nowTs).1 = some mk →
      lookupMeta ("type") mk.metadata = some ("config")) ∧
    ((∃ r ∈ reqs, reqPayload opReqStr r ∈ cfg) →
      (recordMessage true reqs opReqStr cfg reqTsMock nowTs).1 = none) := by
  constructor
  · intro mk hmk
    have hmk' : (if (outerLoop opReqStr reqs cfg cfg true).2 = true then
        some (⟨[(("operation"), opReqStr), (("type"), ("config"))], reqTsMock, nowTs⟩ :
          MongoMockM)
      else none) = some mk := hmk
    by_cases hc : (outerLoop opReqStr reqs cfg cfg true).2 = true
    · rw [if_pos hc] at hmk'
      rw [← Option.some.inj hmk']
      simp [lookupMeta]
    · rw [if_neg hc] at hmk'
      exact Option.noConfusion hmk'
  · rintro ⟨r, hrm, hrc⟩
    have hsf : (outerLoop opReqStr reqs cfg cfg true).2 = false :=
      outerLoop_hits opReqStr reqs cfg cfg true (reqPayload opReqStr r) hrc ⟨r, hrm, rfl⟩
    show (if (outerLoop opReqStr reqs cfg cfg true).2 = true then
        some (⟨[(("operation"), opReqStr), (("type"), ("config"))], reqTsMock, nowTs⟩ :
          MongoMockM)
      else none) = none
    rw [if_neg (by simp [hsf])]

/-- Witness for C9: a repeated heartbeat whose query payload is already in
`configRequests` is not re-emitted. -/
theorem recordMessage_heartbeat_example :
    (recordMessage true [MongoReqMsg.opQuery ("hb")] ("query")
        [(""), ("hb")] 1 2).1 = none :=
  (recordMessage_heartbeat_config [MongoReqMsg.opQuery ("hb")] ("query")
      [(""), ("hb")] 1 2 (by decide)).2
    ⟨MongoReqMsg.opQuery ("hb"), by decide, by decide⟩

end Keploy
